import Mathlib

/-!
Verification of the Jobmap job-aggregation core against its source.

The definitions below are shallow embeddings of the TypeScript source:

* `searchJobs`, `searchTtl`, `searchHandler` — the `/v1/jobs/search`
  route handler in `apps/api/src/routes/jobs.ts` (query construction,
  result cap, count, cache TTL choice).
* `upsertJob` — `upsertJob` in the storage library (create/update by the
  `(source, sourceId)` key, spatial-point maintenance, status defaults).
* `normalizeAddressKey`, `geocodeAddressM`, `reverseGeocode` — the
  geocode resolver in `apps/api/src/lib/geocode.ts`.
* `parseSalary`, `parseSalaryIndeed` — the salary free-text parsers of
  the Arizona Job Connection and Indeed ingest adapters.

Modelling conventions: JavaScript numbers used only for comparison and
equality are embedded as `Int`; timestamps are abstract `Int` instants;
SQL `NULL` is `Option.none`; a thrown exception is `Except.error`; the
external network and database are passed explicitly (an oracle function
and a list of rows).  SQL `LIKE '%t%'` on lower-cased text is modelled
as substring containment, and the `ORDER BY` of the search query as an
insertion sort by the same key, which is adequate for the membership
and cardinality properties proved here.
-/

namespace Jobmap

/-- Moderation status enum (`JobStatus` in the Prisma client). -/
inductive JobStatus where
  | APPROVED
  | PENDING
  | REJECTED
deriving DecidableEq, Repr

/-- Job source enum (`JobSource` in the Prisma client). -/
inductive JobSource where
  | ADZUNA
  | ARIZONA_JOB_CONNECT
  | GOOGLE_JOBS
  | INDEED
  | LINKEDIN
  | MANUAL
  | USAJOBS
  | ZIPRECRUITER
deriving DecidableEq, Repr

/-- Employment type enum (`EmploymentType` in the Prisma client). -/
inductive EmploymentType where
  | FULL_TIME
  | PART_TIME
  | CONTRACT
  | TEMP
  | INTERN
deriving DecidableEq, Repr

/-- A persisted row of the `jobs` table.  `locationPoint` is the derived
PostGIS point `(longitude, latitude)`; `postedAt` is nullable to match the
`NULLS LAST` ordering of the search query. -/
structure JobRow where
  id : String
  source : JobSource
  sourceId : String
  title : String
  company : String
  description : String
  url : String
  street : Option String
  city : Option String
  state : Option String
  postalCode : Option String
  country : String
  latitude : Int
  longitude : Int
  locationPoint : Int × Int
  employmentType : Option EmploymentType
  payMin : Option Int
  payMax : Option Int
  payCurrency : String
  status : JobStatus
  postedAt : Option Int
  createdAt : Int
  updatedAt : Int
deriving DecidableEq, Repr

/-- JavaScript truthiness of an optional string (`undefined`, `null` and
`""` are falsy). -/
def strTruthy : Option String → Bool
  | some s => s ≠ ""
  | none => false

/-- JavaScript truthiness of an optional number (absent and `0` are falsy). -/
def intTruthy : Option Int → Bool
  | some n => n ≠ 0
  | none => false

/-- Substring containment: model of SQL `LIKE '%pat%'`. -/
def containsSub (hay pat : String) : Bool :=
  hay.toList.tails.any (fun t => pat.toList.isPrefixOf t)

/-- Validated query parameters of `GET /v1/jobs/search`
(`searchQuerySchema` plus `parseBbox` in `routes/jobs.ts`).  The
employment types are embedded already parsed to the enum; an invalid
type string would abort the SQL query, which no claim exercises. -/
structure SearchParams where
  minLon : Int
  minLat : Int
  maxLon : Int
  maxLat : Int
  q : Option String
  company : Option String
  minPay : Option Int
  maxAgeDays : Option Int
  types : Option (List EmploymentType)
  type : Option EmploymentType
  limit : Nat
deriving DecidableEq, Repr

/-- Model of `payMax >= minPay OR payMin >= minPay` with SQL `NULL` semantics
(a comparison against `NULL` does not satisfy the predicate). -/
def optGe (o : Option Int) (m : Int) : Bool :=
  match o with
  | some v => decide (m ≤ v)
  | none => false

/-- The conjunction of WHERE conditions built by the search handler
(`routes/jobs.ts` lines 141–207), evaluated on one row.  `now` is the
instant used to compute the `maxAgeDays` cutoff, measured in days. -/
def rowMatches (now : Int) (p : SearchParams) (j : JobRow) : Bool :=
  -- ST_Intersects with ST_MakeEnvelope(minLon, minLat, maxLon, maxLat)
  (decide (p.minLon ≤ j.locationPoint.1) && decide (j.locationPoint.1 ≤ p.maxLon) &&
   decide (p.minLat ≤ j.locationPoint.2) && decide (j.locationPoint.2 ≤ p.maxLat)) &&
  -- keyword: LOWER(title) LIKE $q OR LOWER(description) LIKE $q
  (match p.q with
   | some s =>
     if s = "" then true
     else containsSub j.title.toLower s.toLower || containsSub j.description.toLower s.toLower
   | none => true) &&
  -- company: LOWER(company) LIKE $company
  (match p.company with
   | some s => if s = "" then true else containsSub j.company.toLower s.toLower
   | none => true) &&
  -- minPay: "payMax" >= $m OR "payMin" >= $m   (0 is falsy, filter skipped)
  (match p.minPay with
   | some m => if m = 0 then true else (optGe j.payMax m || optGe j.payMin m)
   | none => true) &&
  -- maxAgeDays: "postedAt" >= now - N days     (0 is falsy, filter skipped)
  (match p.maxAgeDays with
   | some d =>
     if d = 0 then true
     else match j.postedAt with
          | some t => decide (now - d ≤ t)
          | none => false
   | none => true) &&
  -- employment type: OR of equalities over `types`, else single `type`
  (match p.types with
   | some l => l.any (fun t => j.employmentType == some t)
   | none =>
     match p.type with
     | some t => j.employmentType == some t
     | none => true) &&
  -- status = 'APPROVED'
  (j.status == JobStatus.APPROVED) &&
  -- street IS NOT NULL AND street != ''
  (match j.street with
   | some s => s ≠ ""
   | none => false)

/-- The key `ORDER BY "postedAt" DESC NULLS LAST` as a total boolean preorder. -/
def postedAtDescLe (a b : JobRow) : Bool :=
  match a.postedAt, b.postedAt with
  | some x, some y => decide (y ≤ x)
  | some _, none => true
  | none, some _ => false
  | none, none => true

/-- Insert into a list sorted by `le` (helper for the ORDER BY model). -/
def insertLe (le : JobRow → JobRow → Bool) (x : JobRow) : List JobRow → List JobRow
  | [] => [x]
  | y :: ys => if le x y then x :: y :: ys else y :: insertLe le x ys

/-- Insertion sort modelling the SQL ORDER BY. -/
def sortByLe (le : JobRow → JobRow → Bool) (l : List JobRow) : List JobRow :=
  l.foldr (insertLe le) []

/-- The search query of `routes/jobs.ts` (lines 215–235): filter by the
WHERE conjunction, order by `postedAt` descending, cap at `limit`, and
pair the pins with the `count` value the handler computes
(`count: pins.length`). -/
def searchJobs (now : Int) (p : SearchParams) (db : List JobRow) :
    List JobRow × Nat :=
  let pins := (sortByLe postedAtDescLe (db.filter (rowMatches now p))).take p.limit
  (pins, pins.length)

/-- The cache TTL chosen by the search handler on a miss
(`routes/jobs.ts` line 240):
`params.q || params.company || params.minPay || params.maxAgeDays ? 180 : 300`. -/
def searchTtl (p : SearchParams) : Nat :=
  if strTruthy p.q || strTruthy p.company || intTruthy p.minPay || intTruthy p.maxAgeDays
  then 180 else 300

/-- The read-through behaviour of the search handler: on a hit return
the cached value (no store); on a miss compute from storage and store
with `searchTtl`.  The result is `(body, cacheHit, storedTtl)`. -/
def searchHandler (now : Int) (p : SearchParams) (db : List JobRow)
    (cached : Option (List JobRow × Nat)) :
    (List JobRow × Nat) × Bool × Option Nat :=
  match cached with
  | some v => (v, true, none)
  | none => (searchJobs now p db, false, some (searchTtl p))

theorem mem_insertLe {le : JobRow → JobRow → Bool} {x a : JobRow} :
    ∀ {l : List JobRow}, a ∈ insertLe le x l ↔ a = x ∨ a ∈ l := by
  intro l
  induction l with
  | nil => simp [insertLe]
  | cons y ys ih =>
    simp only [insertLe]
    by_cases h : le x y = true
    · simp [h]
    · simp only [h]
      simp [List.mem_cons, ih]
      tauto

theorem mem_sortByLe {le : JobRow → JobRow → Bool} {a : JobRow} :
    ∀ {l : List JobRow}, a ∈ sortByLe le l ↔ a ∈ l := by
  intro l
  induction l with
  | nil => simp [sortByLe]
  | cons y ys ih =>
    simp only [sortByLe, List.foldr_cons]
    rw [show (List.foldr (insertLe le) [] ys) = sortByLe le ys from rfl] at *
    rw [mem_insertLe]
    simp [ih]

theorem length_insertLe {le : JobRow → JobRow → Bool} {x : JobRow} :
    ∀ {l : List JobRow}, (insertLe le x l).length = l.length + 1 := by
  intro l
  induction l with
  | nil => simp [insertLe]
  | cons y ys ih =>
    simp only [insertLe]
    by_cases h : le x y = true
    · simp [h]
    · simp [h, ih]

theorem length_sortByLe {le : JobRow → JobRow → Bool} :
    ∀ {l : List JobRow}, (sortByLe le l).length = l.length := by
  intro l
  induction l with
  | nil => rfl
  | cons y ys ih =>
    simp only [sortByLe, List.foldr_cons] at *
    rw [length_insertLe, ih]
    simp

/-- Claim C1: every posting returned by the bounding-box search has
moderation status `APPROVED` and a non-null, non-empty `street`, for every
database, clock instant and combination of bbox and optional filters. -/
theorem search_street_status_invariant (now : Int) (p : SearchParams)
    (db : List JobRow) (j : JobRow) (h : j ∈ (searchJobs now p db).1) :
    j.status = JobStatus.APPROVED ∧ ∃ s, j.street = some s ∧ s ≠ "" := by
  have h1 : j ∈ sortByLe postedAtDescLe (db.filter (rowMatches now p)) :=
    List.take_subset _ _ h
  have h2 : j ∈ db.filter (rowMatches now p) := mem_sortByLe.1 h1
  have h3 : rowMatches now p j = true := (List.mem_filter.1 h2).2
  unfold rowMatches at h3
  simp only [Bool.and_eq_true] at h3
  refine ⟨by simpa using h3.1.2, ?_⟩
  have hs := h3.2
  cases hst : j.street with
  | none => rw [hst] at hs; simp at hs
  | some s =>
    rw [hst] at hs
    simp only [decide_eq_true_eq] at hs
    exact ⟨s, rfl, by simpa using hs⟩

/-- A concrete approved row with a street, inside the example bbox. -/
def exRow : JobRow :=
  { id := "j1", source := JobSource.ADZUNA, sourceId := "a1"
    title := "Welder", company := "Acme", description := "Welding role"
    url := "https://example.com/j1"
    street := some "123 N Central Ave", city := some "Phoenix"
    state := some "AZ", postalCode := some "85004", country := "US"
    latitude := 33, longitude := -112, locationPoint := (-112, 33)
    employmentType := some EmploymentType.FULL_TIME
    payMin := some 50000, payMax := some 60000, payCurrency := "USD"
    status := JobStatus.APPROVED, postedAt := some 100
    createdAt := 100, updatedAt := 100 }

/-- A second approved row in the same bbox (for the count counterexample). -/
def exRow2 : JobRow :=
  { exRow with id := "j2", sourceId := "a2", title := "Electrician", postedAt := some 90 }

/-- Example search parameters: bbox only, limit 200. -/
def exParams : SearchParams :=
  { minLon := -113, minLat := 33, maxLon := -111, maxLat := 34
    q := none, company := none, minPay := none, maxAgeDays := none
    types := none, type := none, limit := 200 }

theorem search_street_status_invariant_witness :
    exRow ∈ (searchJobs 100 exParams [exRow]).1 ∧
      exRow.status = JobStatus.APPROVED ∧ ∃ s, exRow.street = some s ∧ s ≠ "" := by
  have hm : exRow ∈ (searchJobs 100 exParams [exRow]).1 := by decide
  exact ⟨hm, search_street_status_invariant 100 exParams [exRow] exRow hm⟩

/-- Claim C2 counterexample: with two matching rows and `limit = 1`, the
handler's `count` is the length of the capped pin list (1), not the total
number of matching records (2), and does not exceed the list length as the
claim requires. -/
theorem search_count_counterexample :
    (([exRow, exRow2].filter (rowMatches 100 { exParams with limit := 1 })).length = 2) ∧
      (searchJobs 100 { exParams with limit := 1 } [exRow, exRow2]).2 = 1 ∧
      (searchJobs 100 { exParams with limit := 1 } [exRow, exRow2]).1.length = 1 := by
  decide

/-- Claim C2 (amended): the returned `count` equals the length of the
returned pin list, which is the number of matching records capped at
`limit`; it never exceeds the list length. -/
theorem search_count_is_capped_length (now : Int) (p : SearchParams)
    (db : List JobRow) :
    (searchJobs now p db).2 = (searchJobs now p db).1.length ∧
      (searchJobs now p db).1.length =
        min p.limit (db.filter (rowMatches now p)).length := by
  constructor
  · rfl
  · simp only [searchJobs, List.length_take]
    rw [length_sortByLe]

/-- Parameters whose only optional filter is an employment-type filter. -/
def exParamsTypeOnly : SearchParams :=
  { exParams with types := some [EmploymentType.FULL_TIME] }

/-- The claim's notion of "some optional filter is present" (keyword,
company, minimum pay, max age, or employment type). -/
def hasAnyOptionalFilter (p : SearchParams) : Bool :=
  strTruthy p.q || strTruthy p.company || intTruthy p.minPay ||
    intTruthy p.maxAgeDays || p.types.isSome || p.type.isSome

/-- Claim C3 counterexample: a cache miss whose only optional filter is an
employment-type filter stores with TTL 300, not the 180 the claim
requires for "at least one optional filter present". -/
theorem search_ttl_counterexample :
    hasAnyOptionalFilter exParamsTypeOnly = true ∧
      (searchHandler 100 exParamsTypeOnly [] none).2.2 = some 300 := by
  decide

/-- Claim C3 (amended): on a cache miss the result is stored with TTL 180
exactly when a keyword, company, minimum-pay or max-age filter is present;
the employment-type filters never affect the TTL, so a search whose only
optional filter is an employment-type filter gets the 300-second TTL. -/
theorem search_ttl_filter_rule (now : Int) (p : SearchParams)
    (db : List JobRow) :
    ((searchHandler now p db none).2.2 = some 180 ↔
        (strTruthy p.q || strTruthy p.company || intTruthy p.minPay ||
          intTruthy p.maxAgeDays) = true) ∧
      ((searchHandler now p db none).2.2 = some 180 ∨
        (searchHandler now p db none).2.2 = some 300) ∧
      (∀ ts t, searchTtl { p with types := ts, type := t } = searchTtl p) := by
  refine ⟨?_, ?_, ?_⟩
  · simp only [searchHandler, searchTtl]
    by_cases h : (strTruthy p.q || strTruthy p.company || intTruthy p.minPay ||
        intTruthy p.maxAgeDays) = true
    · simp [h]
    · simp [h]
  · simp only [searchHandler, searchTtl]
    by_cases h : (strTruthy p.q || strTruthy p.company || intTruthy p.minPay ||
        intTruthy p.maxAgeDays) = true
    · left; simp [h]
    · right; simp [h]
  · intro ts t
    rfl

/-- The guard `!data.sourceId || data.sourceId.trim() === ""` of
`upsertJob`: the id is empty or consists only of whitespace. -/
def blankId (s : String) : Bool := s.toList.all Char.isWhitespace

/-- The argument of `upsertJob` (`JobInput` in the storage library). -/
structure JobInput where
  source : JobSource
  sourceId : String
  title : String
  company : String
  description : String
  url : String
  street : Option String
  city : Option String
  state : Option String
  postalCode : Option String
  country : Option String
  latitude : Int
  longitude : Int
  employmentType : Option EmploymentType
  payMin : Option Int
  payMax : Option Int
  payCurrency : Option String
  postedAt : Int
  status : Option JobStatus
deriving DecidableEq, Repr

/-- The lookup `SELECT ... WHERE source = $1 AND "sourceId" = $2` (first row). -/
def findByKey (db : List JobRow) (src : JobSource) (sid : String) : Option JobRow :=
  db.find? (fun r => r.source == src && r.sourceId == sid)

/-- The lookup `SELECT ... WHERE id = $1` (first row). -/
def findById (db : List JobRow) (i : String) : Option JobRow :=
  db.find? (fun r => r.id == i)

/-- The SET list of the conflict-path UPDATE in `upsertJob`: every mutable
field is overwritten from the input (`?? null` / `?? "US"` / `?? "USD"`
defaults applied), `updatedAt` is set to `NOW()`, and `status` is included
in the SET list only when the input provides one.  The derived
`locationPoint` is not touched here. -/
def applyUpdate (d : JobInput) (now : Int) (r : JobRow) : JobRow :=
  { r with
    title := d.title, company := d.company, description := d.description
    url := d.url, street := d.street, city := d.city, state := d.state
    postalCode := d.postalCode, country := d.country.getD "US"
    latitude := d.latitude, longitude := d.longitude
    employmentType := d.employmentType
    payMin := d.payMin, payMax := d.payMax
    payCurrency := d.payCurrency.getD "USD"
    postedAt := some d.postedAt
    updatedAt := now
    status := match d.status with
              | some s => s
              | none => r.status }

/-- The statement `UPDATE jobs SET ... WHERE id = $i` as a map over the table. -/
def updateById (db : List JobRow) (i : String) (g : JobRow → JobRow) : List JobRow :=
  db.map (fun r => if r.id = i then g r else r)

/-- The row built by the no-conflict INSERT of `upsertJob`, with the
PostGIS point `ST_MakePoint(longitude, latitude)` and the given status. -/
def insertRow (d : JobInput) (newId : String) (now : Int) (st : JobStatus) : JobRow :=
  { id := newId, source := d.source, sourceId := d.sourceId
    title := d.title, company := d.company, description := d.description
    url := d.url, street := d.street, city := d.city, state := d.state
    postalCode := d.postalCode, country := d.country.getD "US"
    latitude := d.latitude, longitude := d.longitude
    locationPoint := (d.longitude, d.latitude)
    employmentType := d.employmentType
    payMin := d.payMin, payMax := d.payMax
    payCurrency := d.payCurrency.getD "USD"
    status := st, postedAt := some d.postedAt
    createdAt := now, updatedAt := now }

/-- Function `upsertJob` from the storage library: throws when `sourceId` is empty
or whitespace-only; otherwise updates the row found by `(source,
sourceId)` — re-running `setJobLocationPoint` only when the stored
coordinates differ from the input — or inserts a new row with the
source-dependent default status.  `newId` stands for the generated id and
`now` for `NOW()`; the returned job is the re-`SELECT`ed row (`none`
mirrors JavaScript `undefined` when the re-select finds nothing). -/
def upsertJob (d : JobInput) (db : List JobRow) (newId : String) (now : Int) :
    Except String (Option JobRow × Bool × List JobRow) :=
  if blankId d.sourceId then
    Except.error "sourceId is required"
  else
    match findByKey db d.source d.sourceId with
    | some existing =>
      let db1 := updateById db existing.id (applyUpdate d now)
      let db2 :=
        if existing.latitude ≠ d.latitude ∨ existing.longitude ≠ d.longitude then
          updateById db1 existing.id
            (fun r => { r with locationPoint := (d.longitude, d.latitude) })
        else db1
      Except.ok (findById db2 existing.id, false, db2)
    | none =>
      let defaultStatus :=
        match d.status with
        | some s => s
        | none => if d.source = JobSource.MANUAL then JobStatus.PENDING
                  else JobStatus.APPROVED
      let db1 := db ++ [insertRow d newId now defaultStatus]
      Except.ok (findById db1 newId, true, db1)

theorem findById_updateById (db : List JobRow) (i : String)
    (g : JobRow → JobRow) (hg : ∀ r, (g r).id = r.id) :
    findById (updateById db i g) i = (findById db i).map g := by
  induction db with
  | nil => rfl
  | cons r rs ih =>
    simp only [updateById, findById, List.map_cons, List.find?_cons] at *
    by_cases h : r.id = i
    · simp only [h, if_pos rfl]
      have : ((g r).id == i) = true := by simp [hg r, h]
      simp [this]
    · simp only [if_neg h]
      have hne : (r.id == i) = false := by simp [h]
      simp only [hne]
      exact ih

theorem findById_append_right (db : List JobRow) (r : JobRow)
    (h : findById db r.id = none) :
    findById (db ++ [r]) r.id = some r := by
  unfold findById at *
  rw [List.find?_append, h]
  simp

/-- Claim C9 counterexample: `upsertJob` throws a validation error on an
input whose `sourceId` is empty — it is not total over all job inputs. -/
def exInputEmptyId : JobInput :=
  { source := JobSource.ADZUNA, sourceId := ""
    title := "Welder", company := "Acme", description := "Welding role"
    url := "https://example.com/j1"
    street := some "123 N Central Ave", city := some "Phoenix"
    state := some "AZ", postalCode := some "85004", country := some "US"
    latitude := 33, longitude := -112
    employmentType := some EmploymentType.FULL_TIME
    payMin := some 50000, payMax := some 60000, payCurrency := some "USD"
    postedAt := 100, status := none }

theorem upsert_total_counterexample :
    upsertJob exInputEmptyId [] "c1" 100 = Except.error "sourceId is required" := by
  rfl

/-- Claim C9 (amended): `upsertJob` never raises an identity-conflict
error; its only failure is the explicit validation of `sourceId`, so it
completes with a `(job, created)` result on every input whose `sourceId`
is not empty or whitespace-only, over every database state. -/
theorem upsert_total_on_valid_id (d : JobInput) (db : List JobRow)
    (newId : String) (now : Int) (h : blankId d.sourceId = false) :
    ∃ job created db', upsertJob d db newId now = Except.ok (job, created, db') := by
  unfold upsertJob
  rw [if_neg (by simp [h])]
  cases findByKey db d.source d.sourceId with
  | some existing => exact ⟨_, _, _, rfl⟩
  | none => exact ⟨_, _, _, rfl⟩

theorem upsert_total_on_valid_id_witness :
    blankId ({ exInputEmptyId with sourceId := "a1" } : JobInput).sourceId = false ∧
      ∃ job created db',
        upsertJob { exInputEmptyId with sourceId := "a1" } [] "c1" 100 =
          Except.ok (job, created, db') := by
  refine ⟨by decide, ?_⟩
  exact upsert_total_on_valid_id _ [] "c1" 100 (by decide)

theorem find?_append_of_none {α : Type} {p : α → Bool} {l₁ l₂ : List α}
    (h : l₁.find? p = none) : (l₁ ++ l₂).find? p = l₂.find? p := by
  induction l₁ with
  | nil => simp
  | cons a l ih =>
    rw [List.find?_cons] at h
    by_cases hp : p a = true
    · simp [hp] at h
    · have hpf : p a = false := by simpa using hp
      simp only [hpf] at h
      simp only [List.cons_append, List.find?_cons, hpf]
      exact ih h

/-- Claim C4: re-ingesting an existing `(source, sourceId)` key with no
explicit `status` keeps the stored moderation status, overwrites every
other mutable field from the input, and recomputes the derived spatial
point exactly when the input coordinates differ from the stored ones. -/
theorem upsert_conflict_preserves_status (d : JobInput) (db : List JobRow)
    (newId : String) (now : Int) (existing : JobRow)
    (hid : blankId d.sourceId = false)
    (hfound : findByKey db d.source d.sourceId = some existing)
    (hbyid : findById db existing.id = some existing)
    (hstat : d.status = none) :
    ∃ r' db', upsertJob d db newId now = Except.ok (some r', false, db') ∧
      r'.status = existing.status ∧
      r'.title = d.title ∧ r'.company = d.company ∧
      r'.description = d.description ∧ r'.url = d.url ∧
      r'.street = d.street ∧ r'.city = d.city ∧ r'.state = d.state ∧
      r'.postalCode = d.postalCode ∧ r'.country = d.country.getD "US" ∧
      r'.latitude = d.latitude ∧ r'.longitude = d.longitude ∧
      r'.employmentType = d.employmentType ∧
      r'.payMin = d.payMin ∧ r'.payMax = d.payMax ∧
      r'.payCurrency = d.payCurrency.getD "USD" ∧
      r'.postedAt = some d.postedAt ∧
      r'.locationPoint =
        (if existing.latitude ≠ d.latitude ∨ existing.longitude ≠ d.longitude
         then (d.longitude, d.latitude) else existing.locationPoint) ∧
      r'.createdAt = existing.createdAt := by
  have hgid : ∀ r, (applyUpdate d now r).id = r.id := by intro r; rfl
  unfold upsertJob
  rw [if_neg (by simp [hid]), hfound]
  by_cases hc : existing.latitude ≠ d.latitude ∨ existing.longitude ≠ d.longitude
  · simp only [if_pos hc]
    rw [findById_updateById (updateById db existing.id (applyUpdate d now))
          existing.id
          (fun r => { r with locationPoint := (d.longitude, d.latitude) })
          (fun r => rfl),
        findById_updateById _ _ _ hgid, hbyid]
    refine ⟨_, _, rfl, ?_⟩
    simp [applyUpdate, hstat, if_pos hc]
  · simp only [if_neg hc]
    rw [findById_updateById _ _ _ hgid, hbyid]
    refine ⟨_, _, rfl, ?_⟩
    simp [applyUpdate, hstat, if_neg hc]

/-- A stored row sharing the key of `exInput` (old coordinates, a prior
moderation decision `REJECTED`). -/
def exStored : JobRow :=
  { exRow with id := "c0", source := JobSource.ADZUNA, sourceId := "a1", status := JobStatus.REJECTED, latitude := 40, longitude := -100, locationPoint := (-100, 40) }

/-- A valid upsert input carrying the same key and no status. -/
def exInput : JobInput := { exInputEmptyId with sourceId := "a1" }

theorem upsert_conflict_preserves_status_witness :
    blankId exInput.sourceId = false ∧
      findByKey [exStored] exInput.source exInput.sourceId = some exStored ∧
      findById [exStored] exStored.id = some exStored ∧
      exInput.status = none ∧
      ∃ r' db', upsertJob exInput [exStored] "c9" 200 =
          Except.ok (some r', false, db') ∧
        r'.status = exStored.status ∧
        r'.title = exInput.title ∧ r'.company = exInput.company ∧
        r'.description = exInput.description ∧ r'.url = exInput.url ∧
        r'.street = exInput.street ∧ r'.city = exInput.city ∧
        r'.state = exInput.state ∧
        r'.postalCode = exInput.postalCode ∧
        r'.country = exInput.country.getD "US" ∧
        r'.latitude = exInput.latitude ∧ r'.longitude = exInput.longitude ∧
        r'.employmentType = exInput.employmentType ∧
        r'.payMin = exInput.payMin ∧ r'.payMax = exInput.payMax ∧
        r'.payCurrency = exInput.payCurrency.getD "USD" ∧
        r'.postedAt = some exInput.postedAt ∧
        r'.locationPoint =
          (if exStored.latitude ≠ exInput.latitude ∨
              exStored.longitude ≠ exInput.longitude
           then (exInput.longitude, exInput.latitude)
           else exStored.locationPoint) ∧
        r'.createdAt = exStored.createdAt :=
  ⟨by decide, by decide, by decide, by decide,
    upsert_conflict_preserves_status exInput [exStored] "c9" 200 exStored
      (by decide) (by decide) (by decide) (by decide)⟩

/-- Claim C5: upserting the same valid input twice (key initially absent,
fresh generated id) yields `created = true` then `created = false`, and
the stored record after the second call equals the record after the first
call in every field except the system-managed `updatedAt`. -/
theorem upsert_idempotent (d : JobInput) (db : List JobRow)
    (id₁ id₂ : String) (now₁ now₂ : Int)
    (hid : blankId d.sourceId = false)
    (habsent : findByKey db d.source d.sourceId = none)
    (hfresh : findById db id₁ = none) :
    ∃ r₁ db₁ db₂,
      upsertJob d db id₁ now₁ = Except.ok (some r₁, true, db₁) ∧
      upsertJob d db₁ id₂ now₂ =
        Except.ok (some { r₁ with updatedAt := now₂ }, false, db₂) := by
  have hgid : ∀ r, (applyUpdate d now₂ r).id = r.id := by intro r; rfl
  -- the row created by the first call
  set st := (match d.status with
             | some s => s
             | none => if d.source = JobSource.MANUAL then JobStatus.PENDING
                       else JobStatus.APPROVED) with hst
  refine ⟨insertRow d id₁ now₁ st, db ++ [insertRow d id₁ now₁ st],
    updateById (db ++ [insertRow d id₁ now₁ st]) (insertRow d id₁ now₁ st).id
      (applyUpdate d now₂), ?_, ?_⟩
  · unfold upsertJob
    rw [if_neg (by simp [hid]), habsent]
    have : findById (db ++ [insertRow d id₁ now₁ st]) id₁ =
        some (insertRow d id₁ now₁ st) :=
      findById_append_right db (insertRow d id₁ now₁ st) hfresh
    rw [hst]
    simp only [this]
  · have hkey : findByKey (db ++ [insertRow d id₁ now₁ st]) d.source d.sourceId =
        some (insertRow d id₁ now₁ st) := by
      unfold findByKey at habsent ⊢
      rw [find?_append_of_none habsent]
      simp [insertRow]
    have hsel : findById (db ++ [insertRow d id₁ now₁ st])
          (insertRow d id₁ now₁ st).id =
        some (insertRow d id₁ now₁ st) :=
      findById_append_right db _ hfresh
    have hrow : applyUpdate d now₂ (insertRow d id₁ now₁ st) =
        { insertRow d id₁ now₁ st with updatedAt := now₂ } := by
      cases hds : d.status with
      | some s => simp [applyUpdate, insertRow, hst, hds]
      | none => simp [applyUpdate, insertRow, hst, hds]
    unfold upsertJob
    rw [if_neg (by simp [hid]), hkey]
    dsimp only
    rw [if_neg (by simp [insertRow])]
    rw [findById_updateById _ _ _ hgid, hsel, Option.map_some', hrow]

theorem upsert_idempotent_witness :
    blankId exInput.sourceId = false ∧
      findByKey [] exInput.source exInput.sourceId = none ∧
      findById [] "c1" = none ∧
      ∃ r₁ db₁ db₂,
        upsertJob exInput [] "c1" 100 = Except.ok (some r₁, true, db₁) ∧
        upsertJob exInput db₁ "c2" 150 =
          Except.ok (some { r₁ with updatedAt := 150 }, false, db₂) :=
  ⟨by decide, by decide, by decide,
    upsert_idempotent exInput [] "c1" "c2" 100 150 (by decide) (by decide)
      (by decide)⟩

/-- Structure `GeocodeAddress` from `lib/geocode.ts`. -/
structure GeocodeAddress where
  street : Option String
  city : Option String
  state : Option String
  postalCode : Option String
  country : Option String
deriving DecidableEq, Repr

/-- JavaScript `s.toLowerCase()` (ASCII model over the characters). -/
def jsLower (s : String) : String := String.mk (s.toList.map Char.toLower)

/-- JavaScript `s.trim()`: strip leading and trailing whitespace. -/
def jsTrim (s : String) : String :=
  String.mk (((s.toList.dropWhile Char.isWhitespace).reverse.dropWhile
    Char.isWhitespace).reverse)

/-- JavaScript `x || d` on an optional string (absent and `""` fall back). -/
def jsOrDefault (x : Option String) (d : String) : String :=
  match x with
  | some s => if s = "" then d else s
  | none => d

/-- One slot's contribution to the geocode cache key: the source filters
falsy parts first and then maps `toLowerCase().trim()`, so an absent or
empty component is dropped while a whitespace-only one is kept and
becomes an empty part. -/
def partCanon (o : Option String) : Option String :=
  match o with
  | some s => if s = "" then none else some (jsTrim (jsLower s))
  | none => none

/-- Function `normalizeAddressKey` from `lib/geocode.ts` lines 19–32. -/
def normalizeAddressKey (a : GeocodeAddress) : String :=
  String.intercalate ", "
    (([a.street, a.city, a.state, a.postalCode,
       some (jsOrDefault a.country "US")]).filterMap partCanon)

/-- The persistent geocode cache table plus a counter of invocations of
the external geocoding service. -/
structure GeoState where
  cache : List (String × Int × Int)
  calls : Nat
deriving DecidableEq, Repr

/-- The read `prisma.geocodeCache.findUnique` on the key column. -/
def cacheFind (c : List (String × Int × Int)) (k : String) : Option (Int × Int) :=
  (c.find? (fun e => e.1 == k)).map (fun e => e.2)

/-- The write `prisma.geocodeCache.upsert`: the keyed map after writing `k ↦ v`. -/
def cacheUpsert (c : List (String × Int × Int)) (k : String) (v : Int × Int) :
    List (String × Int × Int) :=
  (k, v.1, v.2) :: c.filter (fun e => e.1 != k)

/-- Function `geocodeAddress` from `lib/geocode.ts` lines 125–167: look the
normalized key up in the cache and return immediately on a hit; on a miss
invoke the external Mapbox query (abstracted as `oracle`, `none` meaning
the lookup threw) and cache a successful result under the key.  Cache
reads and writes are modelled as succeeding — the claims assume a working
cache — and every oracle invocation (which performs at least one network
call) increments `calls`. -/
def geocodeAddressM (oracle : GeocodeAddress → Option (Int × Int))
    (a : GeocodeAddress) (st : GeoState) : Option (Int × Int) × GeoState :=
  let key := normalizeAddressKey a
  match cacheFind st.cache key with
  | some v => (some v, st)
  | none =>
    match oracle a with
    | none => (none, { st with calls := st.calls + 1 })
    | some r =>
      (some r, { cache := cacheUpsert st.cache key r, calls := st.calls + 1 })

theorem geocode_hit_after_success
    (oracle : GeocodeAddress → Option (Int × Int)) (a : GeocodeAddress)
    (st st' : GeoState) (r : Int × Int)
    (h : geocodeAddressM oracle a st = (some r, st')) :
    cacheFind st'.cache (normalizeAddressKey a) = some r := by
  unfold geocodeAddressM at h
  dsimp only at h
  cases hfind : cacheFind st.cache (normalizeAddressKey a) with
  | some v =>
    rw [hfind] at h
    simp only [Prod.mk.injEq, Option.some.injEq] at h
    rw [← h.2, ← h.1]
    exact hfind
  | none =>
    rw [hfind] at h
    cases horacle : oracle a with
    | none => rw [horacle] at h; simp at h
    | some r0 =>
      rw [horacle] at h
      simp only [Prod.mk.injEq, Option.some.injEq] at h
      rw [← h.2, ← h.1]
      simp [cacheFind, cacheUpsert]

theorem geocode_cached_second_call
    (oracle : GeocodeAddress → Option (Int × Int)) (a : GeocodeAddress)
    (st' : GeoState) (r : Int × Int)
    (h : cacheFind st'.cache (normalizeAddressKey a) = some r) :
    geocodeAddressM oracle a st' = (some r, st') := by
  unfold geocodeAddressM
  dsimp only
  rw [h]

/-- Claim C7: after a successful `forward()` geocode of an address, the
cache holds its normalized key, and a second `forward()` of the same
address reads that entry and returns the identical coordinate with the
state — including the external-call counter — unchanged. -/
theorem geocode_forward_memoized
    (oracle : GeocodeAddress → Option (Int × Int)) (a : GeocodeAddress)
    (st st' : GeoState) (r : Int × Int)
    (h : geocodeAddressM oracle a st = (some r, st')) :
    cacheFind st'.cache (normalizeAddressKey a) = some r ∧
      geocodeAddressM oracle a st' = (some r, st') ∧
      (geocodeAddressM oracle a st').2.calls = st'.calls := by
  have hc := geocode_hit_after_success oracle a st st' r h
  have h2 := geocode_cached_second_call oracle a st' r hc
  exact ⟨hc, h2, by rw [h2]⟩

/-- The scenario address `123 N Central Ave, Phoenix, AZ, 85004, US`. -/
def exAddr : GeocodeAddress :=
  { street := some "123 N Central Ave", city := some "Phoenix"
    state := some "AZ", postalCode := some "85004", country := some "US" }

/-- A deterministic stand-in for the external geocoding service. -/
def exOracle : GeocodeAddress → Option (Int × Int) := fun _ => some (3, 4)

theorem geocode_forward_memoized_witness :
    cacheFind [(normalizeAddressKey exAddr, 3, 4)] (normalizeAddressKey exAddr) =
        some (3, 4) ∧
      geocodeAddressM exOracle exAddr
          { cache := [(normalizeAddressKey exAddr, 3, 4)], calls := 1 } =
        (some (3, 4), { cache := [(normalizeAddressKey exAddr, 3, 4)], calls := 1 }) ∧
      (geocodeAddressM exOracle exAddr
          { cache := [(normalizeAddressKey exAddr, 3, 4)], calls := 1 }).2.calls = 1 :=
  geocode_forward_memoized exOracle exAddr ⟨[], 0⟩
    ⟨[(normalizeAddressKey exAddr, 3, 4)], 1⟩ (3, 4) rfl

/-- The claim's component relation: equal up to letter case and
leading/trailing whitespace (absent matches only absent). -/
def sameUpToCaseWs (x y : Option String) : Bool :=
  match x, y with
  | none, none => true
  | some s, some t => jsTrim (jsLower s) == jsTrim (jsLower t)
  | _, _ => false

/-- The claim's country relation: absent is interchangeable with exactly
`"US"`, and present values compare up to case and whitespace. -/
def sameCountryClaim (x y : Option String) : Bool :=
  jsTrim (jsLower (x.getD "US")) == jsTrim (jsLower (y.getD "US"))

/-- Two addresses related as claim C10 states it. -/
def addrEquivClaim (a b : GeocodeAddress) : Bool :=
  sameUpToCaseWs a.street b.street && sameUpToCaseWs a.city b.city &&
  sameUpToCaseWs a.state b.state &&
  sameUpToCaseWs a.postalCode b.postalCode &&
  sameCountryClaim a.country b.country

/-- An address with a whitespace-only street. -/
def exAddrWs : GeocodeAddress :=
  { street := some " ", city := some "Phoenix", state := none
    postalCode := none, country := none }

/-- The same address with an empty street instead. -/
def exAddrEmpty : GeocodeAddress := { exAddrWs with street := some "" }

/-- Claim C10 counterexample: two addresses whose street differs only in
whitespace (`" "` versus `""`) are equivalent in the claim's sense but map
to different cache keys — the source filters falsy components before
trimming, so the whitespace-only street survives as an empty key part —
and caching one does not prevent a second external lookup for the other. -/
theorem geocode_key_counterexample :
    addrEquivClaim exAddrWs exAddrEmpty = true ∧
      normalizeAddressKey exAddrWs ≠ normalizeAddressKey exAddrEmpty ∧
      (geocodeAddressM exOracle exAddrEmpty
        (geocodeAddressM exOracle exAddrWs ⟨[], 0⟩).2).2.calls = 2 := by
  decide

/-- Amended component relation: each of street/city/state/postalCode is
falsy (absent or empty) in both addresses, or truthy in both and equal up
to case and leading/trailing whitespace. -/
def compEquivA (x y : Option String) : Bool :=
  match x, y with
  | some s, some t =>
    if s == "" then t == ""
    else t != "" && (jsTrim (jsLower s) == jsTrim (jsLower t))
  | some s, none => s == ""
  | none, some t => t == ""
  | none, none => true

/-- Amended country relation: after the `country || "US"` default (absent
or empty becomes `"US"`), the values are equal up to case and whitespace. -/
def countryEquivA (x y : Option String) : Bool :=
  jsTrim (jsLower (jsOrDefault x "US")) == jsTrim (jsLower (jsOrDefault y "US"))

/-- Two addresses related as the amended claim C10 states it. -/
def addrEquivAmended (a b : GeocodeAddress) : Bool :=
  compEquivA a.street b.street && compEquivA a.city b.city &&
  compEquivA a.state b.state && compEquivA a.postalCode b.postalCode &&
  countryEquivA a.country b.country

theorem partCanon_eq_of_compEquivA {x y : Option String}
    (h : compEquivA x y = true) : partCanon x = partCanon y := by
  cases x with
  | none =>
    cases y with
    | none => rfl
    | some t =>
      simp only [compEquivA, beq_iff_eq] at h
      simp [partCanon, h]
  | some s =>
    cases y with
    | none =>
      simp only [compEquivA, beq_iff_eq] at h
      simp [partCanon, h]
    | some t =>
      simp only [compEquivA] at h
      by_cases hs : s = ""
      · rw [if_pos (by simp [hs])] at h
        simp only [beq_iff_eq] at h
        simp [partCanon, hs, h]
      · rw [if_neg (by simp [hs])] at h
        simp only [Bool.and_eq_true, bne_iff_ne, beq_iff_eq] at h
        simp [partCanon, hs, h.1, h.2]

theorem partCanon_country_eq_of_countryEquivA {x y : Option String}
    (h : countryEquivA x y = true) :
    partCanon (some (jsOrDefault x "US")) = partCanon (some (jsOrDefault y "US")) := by
  simp only [countryEquivA, beq_iff_eq] at h
  have hx : jsOrDefault x "US" ≠ "" := by
    cases x with
    | none => simp [jsOrDefault]
    | some s =>
      simp only [jsOrDefault]
      by_cases hs : s = ""
      · simp [hs]
      · simp [hs]
  have hy : jsOrDefault y "US" ≠ "" := by
    cases y with
    | none => simp [jsOrDefault]
    | some s =>
      simp only [jsOrDefault]
      by_cases hs : s = ""
      · simp [hs]
      · simp [hs]
  simp [partCanon, hx, hy, h]

/-- Claim C10 (amended): the cache key is case- and whitespace-insensitive
on each present component and defaults an absent or empty country to
`"US"`: if each of street/city/state/postalCode is falsy in both addresses
or truthy in both and equal up to case and leading/trailing whitespace,
and the defaulted countries agree up to case and whitespace, the two
addresses map to the same cache key, so once either is successfully
geocoded the other resolves from the cache to the identical coordinate
with no new external call. -/
theorem geocode_key_insensitive (a b : GeocodeAddress)
    (h : addrEquivAmended a b = true) :
    normalizeAddressKey a = normalizeAddressKey b ∧
      ∀ oracle st st' r,
        geocodeAddressM oracle a st = (some r, st') →
        geocodeAddressM oracle b st' = (some r, st') := by
  simp only [addrEquivAmended, Bool.and_eq_true] at h
  obtain ⟨⟨⟨⟨h1, h2⟩, h3⟩, h4⟩, h5⟩ := h
  have p1 := partCanon_eq_of_compEquivA h1
  have p2 := partCanon_eq_of_compEquivA h2
  have p3 := partCanon_eq_of_compEquivA h3
  have p4 := partCanon_eq_of_compEquivA h4
  have p5 := partCanon_country_eq_of_countryEquivA h5
  have hkey : normalizeAddressKey a = normalizeAddressKey b := by
    unfold normalizeAddressKey
    simp only [List.filterMap_cons, List.filterMap_nil, p1, p2, p3, p4, p5]
  refine ⟨hkey, ?_⟩
  intro oracle st st' r hfirst
  have hc := geocode_hit_after_success oracle a st st' r hfirst
  rw [hkey] at hc
  exact geocode_cached_second_call oracle b st' r hc

/-- Address variant A for the amended-claim witness. -/
def exAddrA : GeocodeAddress :=
  { street := some "123 Main St", city := some "Phoenix"
    state := some "az ", postalCode := none, country := none }

/-- Address variant B: case/whitespace changes, empty postal, explicit US. -/
def exAddrB : GeocodeAddress :=
  { street := some " 123 MAIN ST", city := some "phoenix"
    state := some "AZ", postalCode := some "", country := some "US" }

theorem geocode_key_insensitive_witness :
    addrEquivAmended exAddrA exAddrB = true ∧
      (normalizeAddressKey exAddrA = normalizeAddressKey exAddrB ∧
        ∀ oracle st st' r,
          geocodeAddressM oracle exAddrA st = (some r, st') →
          geocodeAddressM oracle exAddrB st' = (some r, st')) :=
  ⟨by decide, geocode_key_insensitive exAddrA exAddrB (by decide)⟩

/-- One entry of a feature's `context` array in a Mapbox response. -/
structure MbContext where
  cid : Option String
  ctext : Option String
  shortCode : Option String
deriving DecidableEq, Repr

/-- One candidate feature of a Mapbox reverse-geocoding response:
`place_type`, `text`, `properties.name`, `properties.address`, `context`. -/
structure MbFeature where
  placeType : List String
  ftext : Option String
  propName : Option String
  propAddress : Option String
  fcontext : List MbContext
deriving DecidableEq, Repr

/-- The precision score the selection loop assigns to a candidate:
poi 3 > address 2 > street 1 > everything else 0. -/
def precScore (f : MbFeature) : Nat :=
  match f.placeType.head? with
  | some "poi" => 3
  | some "address" => 2
  | some "street" => 1
  | _ => 0

/-- The `for (const f of data.features)` loop of `reverseGeocode`: keep
the current best, replacing it only on a strictly greater score. -/
def selBestAux (cur : MbFeature) (curP : Nat) : List MbFeature → MbFeature
  | [] => cur
  | f :: rest =>
    if precScore f > curP then selBestAux f (precScore f) rest
    else selBestAux cur curP rest

/-- Candidate selection: start from `features[0]` with score 0 and scan
the whole array (`none` when the response has no features). -/
def selectBest : List MbFeature → Option MbFeature
  | [] => none
  | f0 :: rest => some (selBestAux f0 0 (f0 :: rest))

/-- JavaScript template interpolation of a possibly-undefined string. -/
def jsTemplateStr (o : Option String) : String :=
  match o with
  | some s => s
  | none => "undefined"

/-- The root of an id, `id.split(".")[0]`. -/
def beforeDot (s : String) : String :=
  String.mk (s.toList.takeWhile (fun c => c ≠ '.'))

/-- Replace the first occurrence of `pat` in a character list. -/
def replaceFirstAux (pat sub : List Char) : List Char → List Char
  | [] => []
  | c :: cs =>
    if pat.isPrefixOf (c :: cs) then sub ++ (c :: cs).drop pat.length
    else c :: replaceFirstAux pat sub cs

/-- JavaScript `s.replace(pat, sub)` (first occurrence only). -/
def replaceFirst (s pat sub : String) : String :=
  String.mk (replaceFirstAux pat.toList sub.toList s.toList)

/-- The `context` extraction loop of `reverseGeocode`: accumulates
`(city, state, postalCode, country)` over the items. -/
def ctxExtract (items : List MbContext) :
    Option String × Option String × Option String × String :=
  items.foldl
    (fun acc item =>
      let (city, state, postalCode, country) := acc
      match item.cid.map beforeDot with
      | some "place" =>
        if strTruthy city then acc else (item.ctext, state, postalCode, country)
      | some "region" =>
        let sc := item.shortCode.map (fun s => replaceFirst s "US-" "")
        (city, if strTruthy sc then sc else item.ctext, postalCode, country)
      | some "postcode" => (city, state, item.ctext, country)
      | some "country" =>
        (city, state, postalCode, jsOrDefault item.shortCode "US")
      | _ => acc)
    (none, none, none, "US")

/-- Function `reverseGeocode` from `lib/geocode.ts` lines 173–289, with the HTTP
round trip abstracted away: the input is the `features` array of the
response (an empty array covers both the missing and the empty case, and
a thrown fetch error is outside this model, where the function returns
`null` as well).  Ranks the candidates by `precScore`, gates city-level
best candidates unless `allowImprecise`, extracts the street from the
best candidate and the remaining components from its context, and gates
a missing street unless `allowImprecise`. -/
def reverseGeocode (features : List MbFeature) (allowImprecise : Bool) :
    Option GeocodeAddress :=
  match selectBest features with
  | none => none
  | some feature =>
    let featureType := feature.placeType.head?
    let isPrecise := featureType == some "poi" || featureType == some "address"
    let isCityLevel := featureType == some "place" || featureType == some "region"
    if !allowImprecise && !isPrecise && isCityLevel then none
    else
      let street : Option String :=
        if featureType == some "poi" && strTruthy feature.propName then
          if strTruthy feature.propAddress then
            some (jsTrim (jsTemplateStr feature.propAddress ++ " " ++
              jsTemplateStr feature.propName))
          else feature.propName
        else if strTruthy feature.propAddress then
          some (jsTrim (jsTemplateStr feature.propAddress ++ " " ++
            jsTemplateStr feature.ftext))
        else if strTruthy feature.ftext then feature.ftext
        else none
      let (city, state, postalCode, country) := ctxExtract feature.fcontext
      if !strTruthy street && !allowImprecise then none
      else
        some
          { street := if strTruthy street then street else none
            city := if strTruthy city then city else none
            state := if strTruthy state then state else none
            postalCode := if strTruthy postalCode then postalCode else none
            country := some country }

theorem selBestAux_spec (l : List MbFeature) :
    ∀ (cur : MbFeature) (curP : Nat), curP ≤ precScore cur →
      ((selBestAux cur curP l = cur ∨ selBestAux cur curP l ∈ l) ∧
        curP ≤ precScore (selBestAux cur curP l) ∧
        ∀ f ∈ l, precScore f ≤ precScore (selBestAux cur curP l)) := by
  induction l with
  | nil =>
    intro cur curP hcur
    exact ⟨Or.inl rfl, hcur.trans (le_refl _), by simp⟩
  | cons f rest ih =>
    intro cur curP hcur
    simp only [selBestAux]
    by_cases hf : precScore f > curP
    · rw [if_pos hf]
      obtain ⟨hmem, hbound, hall⟩ := ih f (precScore f) (le_refl _)
      refine ⟨?_, le_of_lt (lt_of_lt_of_le hf hbound), ?_⟩
      · cases hmem with
        | inl he => exact Or.inr (by simp [he])
        | inr hm => exact Or.inr (by simp [hm])
      · intro g hg
        cases List.mem_cons.1 hg with
        | inl hge => rw [hge]; exact hbound
        | inr hgr => exact hall g hgr
    · rw [if_neg hf]
      push_neg at hf
      obtain ⟨hmem, hbound, hall⟩ := ih cur curP hcur
      refine ⟨?_, hbound, ?_⟩
      · cases hmem with
        | inl he => exact Or.inl he
        | inr hm => exact Or.inr (by simp [hm])
      · intro g hg
        cases List.mem_cons.1 hg with
        | inl hge => rw [hge]; exact hf.trans hbound
        | inr hgr => exact hall g hgr

/-- Claim C8: the reverse geocoder's selection loop picks a candidate of
maximal precision score (poi > address > street > everything else) from
the response, and when `allow_imprecise` is false and the best candidate
is a city/region-level match (`place` or `region`), `reverseGeocode`
returns no address. -/
theorem reverse_precision_gate (fs : List MbFeature) (best : MbFeature)
    (hsel : selectBest fs = some best) :
    (best ∈ fs ∧ ∀ f ∈ fs, precScore f ≤ precScore best) ∧
      ((best.placeType.head? = some "place" ∨
          best.placeType.head? = some "region") →
        reverseGeocode fs false = none) := by
  constructor
  · cases fs with
    | nil => simp [selectBest] at hsel
    | cons f0 rest =>
      simp only [selectBest, Option.some.injEq] at hsel
      obtain ⟨hmem, _, hall⟩ :=
        selBestAux_spec (f0 :: rest) f0 0 (Nat.zero_le _)
      rw [hsel] at hmem hall
      refine ⟨?_, hall⟩
      cases hmem with
      | inl he => rw [← he]; exact List.mem_cons_self _ _
      | inr hm => exact hm
  · intro hcity
    unfold reverseGeocode
    rw [hsel]
    dsimp only
    have hgate : (!false && !(best.placeType.head? == some "poi" ||
        best.placeType.head? == some "address") &&
        (best.placeType.head? == some "place" ||
          best.placeType.head? == some "region")) = true := by
      cases hcity with
      | inl hp => rw [hp]; rfl
      | inr hr => rw [hr]; rfl
    rw [if_pos hgate]

/-- A city-level candidate (`place_type = ["place"]`). -/
def exPlaceFeature : MbFeature :=
  { placeType := ["place"], ftext := some "Phoenix", propName := none
    propAddress := none, fcontext := [] }

theorem reverse_precision_gate_witness :
    selectBest [exPlaceFeature] = some exPlaceFeature ∧
      ((exPlaceFeature ∈ [exPlaceFeature] ∧
          ∀ f ∈ [exPlaceFeature], precScore f ≤ precScore exPlaceFeature) ∧
        ((exPlaceFeature.placeType.head? = some "place" ∨
            exPlaceFeature.placeType.head? = some "region") →
          reverseGeocode [exPlaceFeature] false = none)) :=
  ⟨by decide, reverse_precision_gate [exPlaceFeature] exPlaceFeature (by decide)⟩

/-- A JavaScript number in the salary parsers: `none` is `NaN` (from
`parseInt` of a token with no digits, i.e. bare commas), `some n` an
ordinary non-negative value. -/
abbrev JsNum := Option Nat

/-- JavaScript truthiness of such a number (`NaN` and `0` are falsy). -/
def jsTruthyNum : JsNum → Bool
  | some n => n ≠ 0
  | none => false

/-- Comparison `x < m` as JavaScript evaluates it (`NaN < m` is false). -/
def jsLtNat : JsNum → Nat → Bool
  | some n, m => decide (n < m)
  | none, _ => false

/-- JavaScript `Math.min` of two values (`NaN` absorbs). -/
def jsMin2 : JsNum → JsNum → JsNum
  | some a, some b => some (min a b)
  | _, _ => none

/-- JavaScript `Math.max` of two values (`NaN` absorbs). -/
def jsMax2 : JsNum → JsNum → JsNum
  | some a, some b => some (max a b)
  | _, _ => none

/-- JavaScript `Math.min(...numbers)` over a non-empty spread. -/
def jsMinL : List JsNum → JsNum
  | [] => none
  | a :: rest => rest.foldl jsMin2 a

/-- JavaScript `Math.max(...numbers)` over a non-empty spread. -/
def jsMaxL : List JsNum → JsNum
  | [] => none
  | a :: rest => rest.foldl jsMax2 a

/-- Multiplication by the annualization factor (`NaN` propagates). -/
def jsMulAnnual : JsNum → JsNum
  | some n => some (n * 2080)
  | none => none

/-- A character matched by the token pattern `[\d,]+`. -/
def isSalaryChar (c : Char) : Bool := c.isDigit || c == ','

/-- The maximal runs of digit/comma characters in a string — the list of
matches of `/[\d,]+/g` (and, comma/digit content apart from an optional
glued `$`, of the Indeed pattern `/\$?([\d,]+)/g`). -/
def salaryRuns : List Char → List (List Char)
  | [] => []
  | c :: cs =>
    let rest := salaryRuns cs
    if isSalaryChar c then
      match cs with
      | c2 :: _ =>
        if isSalaryChar c2 then
          match rest with
          | r :: rs => (c :: r) :: rs
          | [] => [[c]]
        else [c] :: rest
      | [] => [[c]]
    else rest

/-- Decimal value of a digit list. -/
def digitsVal (l : List Char) : Nat :=
  l.foldl (fun acc c => acc * 10 + (c.toNat - 48)) 0

/-- JavaScript `parseInt(token.replace(/,/g, ""))`: strip the commas and parse;
a token with no digits parses to `NaN`. -/
def parseIntTok (l : List Char) : JsNum :=
  let ds := l.filter (fun c => c ≠ ',')
  if ds.isEmpty then none else some (digitsVal ds)

/-- The extraction `salaryText.match(/[\d,]+/g)?.map(n => parseInt(...)) || []`. -/
def salaryNumbers (s : String) : List JsNum :=
  (salaryRuns s.toList).map parseIntTok

/-- The `{ payMin?, payMax? }` result object: the outer `Option` is
`undefined`, the inner `JsNum` the (possibly `NaN`) value. -/
structure PayResult where
  payMin : Option JsNum
  payMax : Option JsNum
deriving DecidableEq, Repr

/-- The branch logic of the Arizona Job Connection `parseSalary` on the
extracted numbers: single token duplicated, otherwise spread min/max;
then `if (payMax && payMax < 100)` annualize `payMax` and set
`payMin = payMin ? payMin * 2080 : undefined`. -/
def fromNumbers (numbers : List JsNum) : PayResult :=
  match numbers with
  | [] => ⟨none, none⟩
  | n :: rest =>
    let pm := if rest.isEmpty then n else jsMinL (n :: rest)
    let pM := if rest.isEmpty then n else jsMaxL (n :: rest)
    if jsTruthyNum pM && jsLtNat pM 100 then
      ⟨if jsTruthyNum pm then some (jsMulAnnual pm) else none,
        some (jsMulAnnual pM)⟩
    else ⟨some pm, some pM⟩

/-- Function `parseSalary` of the Arizona Job Connection adapter
(`ingest/arizona-job-connection.ts` lines 41–67). -/
def parseSalary (salaryText : Option String) : PayResult :=
  if strTruthy salaryText then fromNumbers (salaryNumbers (salaryText.getD ""))
  else ⟨none, none⟩

/-- Function `parseSalary` of the Indeed adapter (the ScraperAPI-based scraper):
same token extraction, but `NaN` entries are filtered out and no
annualization is ever applied. -/
def parseSalaryIndeed (salaryStr : Option String) : Option Nat × Option Nat :=
  if strTruthy salaryStr = false then (none, none)
  else
    let nums := (salaryRuns (salaryStr.getD "").toList).map parseIntTok
    if nums.isEmpty then (none, none)
    else
      match nums.filterMap id with
      | [] => (none, none)
      | a :: rest =>
        if rest.isEmpty then (some a, some a)
        else (some (rest.foldl min a), some (rest.foldl max a))

/-- The pay computation exactly as claim C6 words it, over the numeric
token values: single token duplicated, several tokens min/max, both
multiplied by 2080 whenever the maximum is below 100, absent when there
are no tokens. -/
def parseSalarySpecClaim (tokens : List Nat) : Option Nat × Option Nat :=
  match tokens with
  | [] => (none, none)
  | t :: ts =>
    let lo := ts.foldl min t
    let hi := ts.foldl max t
    if hi < 100 then (some (lo * 2080), some (hi * 2080))
    else (some lo, some hi)

/-- Claim C6 counterexample: on `"0-50"` the tokens are 0 and 50 and the
claim requires both values annualized (`payMin = 0`, `payMax = 104000`),
but the parser's truthiness test `payMin ? payMin * 2080 : undefined`
drops the zero minimum entirely, returning an absent `payMin`. -/
theorem parse_salary_counterexample :
    salaryNumbers "0-50" = [some 0, some 50] ∧
      parseSalarySpecClaim [0, 50] = (some 0, some 104000) ∧
      parseSalary (some "0-50") = ⟨none, some (some 104000)⟩ := by
  decide

/-- The amended pay rule, stated declaratively over the extracted
numbers (`NaN` from comma-only tokens propagating): no tokens means both
fields absent; otherwise take min and max (a single token is both); when
the maximum is an actual number strictly between 0 and 100, the maximum
is annualized and the minimum is annualized when nonzero but dropped to
absent when zero or `NaN`; any other maximum (zero, at least 100, or
`NaN`) leaves both values unscaled. -/
def parseSalarySpecAmended (numbers : List JsNum) : PayResult :=
  match numbers with
  | [] => ⟨none, none⟩
  | n :: rest =>
    let lo := if rest.isEmpty then n else jsMinL (n :: rest)
    let hi := if rest.isEmpty then n else jsMaxL (n :: rest)
    match hi with
    | none => ⟨some lo, some hi⟩
    | some h =>
      if h = 0 ∨ 100 ≤ h then ⟨some lo, some hi⟩
      else
        ⟨match lo with
         | none => none
         | some l => if l = 0 then none else some (some (l * 2080)),
          some (some (h * 2080))⟩

/-- The Indeed variant of the amended rule: min and max of the non-`NaN`
token values, never annualized. -/
def parseSalaryIndeedSpec (amounts : List Nat) : Option Nat × Option Nat :=
  match amounts with
  | [] => (none, none)
  | a :: rest => (some (rest.foldl min a), some (rest.foldl max a))

theorem fromNumbers_eq_amended (ns : List JsNum) :
    fromNumbers ns = parseSalarySpecAmended ns := by
  cases ns with
  | nil => rfl
  | cons n rest =>
    simp only [fromNumbers, parseSalarySpecAmended]
    cases hM : (if rest.isEmpty then n else jsMaxL (n :: rest)) with
    | none => simp [jsTruthyNum]
    | some h =>
      dsimp only
      by_cases h0 : h = 0 ∨ 100 ≤ h
      · rw [if_pos h0]
        have hfalse : (jsTruthyNum (some h) && jsLtNat (some h) 100) = false := by
          cases h0 with
          | inl hz => simp [jsTruthyNum, hz]
          | inr hge => simp [jsTruthyNum, jsLtNat, Nat.not_lt.2 hge]
        rw [hfalse]
        simp
      · rw [if_neg h0]
        push_neg at h0
        have htrue : (jsTruthyNum (some h) && jsLtNat (some h) 100) = true := by
          simp [jsTruthyNum, jsLtNat, h0.1, h0.2]
        rw [htrue]
        simp only [if_pos rfl, cond_true, jsMulAnnual]
        cases hm : (if rest.isEmpty then n else jsMinL (n :: rest)) with
        | none => simp [jsTruthyNum]
        | some l =>
          by_cases hl : l = 0
          · simp [jsTruthyNum, hl]
          · simp [jsTruthyNum, jsMulAnnual, hl]

theorem parseSalaryIndeed_eq_spec (s : String) :
    parseSalaryIndeed (some s) =
      parseSalaryIndeedSpec
        (((salaryRuns s.toList).map parseIntTok).filterMap id) := by
  unfold parseSalaryIndeed
  by_cases hs : s = ""
  · subst hs
    rfl
  · rw [if_neg (by simp [strTruthy, hs])]
    dsimp only
    simp only [Option.getD_some]
    cases hnums : (salaryRuns s.toList).map parseIntTok with
    | nil => rfl
    | cons a b =>
      cases hfm : (a :: b).filterMap id with
      | nil => rfl
      | cons c cs =>
        cases cs with
        | nil => rfl
        | cons d ds => rfl

/-- Claim C6 (amended): absent text yields absent pay; otherwise the
Arizona Job Connection parser realizes the amended rule over its
extracted tokens — annualization requires a nonzero, non-`NaN` maximum
below 100, and a zero minimum is dropped rather than annualized — while
the Indeed adapter's parser takes the plain min/max of the non-`NaN`
tokens and never annualizes. -/
theorem parse_salary_amended_rule (s : String) :
    parseSalary none = ⟨none, none⟩ ∧
      parseSalary (some s) = parseSalarySpecAmended (salaryNumbers s) ∧
      parseSalaryIndeed (some s) =
        parseSalaryIndeedSpec
          (((salaryRuns s.toList).map parseIntTok).filterMap id) := by
  refine ⟨rfl, ?_, parseSalaryIndeed_eq_spec s⟩
  unfold parseSalary
  by_cases hs : s = ""
  · subst hs
    rfl
  · rw [if_pos (by simp [strTruthy, hs])]
    exact fromNumbers_eq_amended _

end Jobmap
